import Mathlib

set_option maxHeartbeats 1000000

/-! # A verification development of `list_search.py`

A shallow embedding of the query-and-filter engine: the dynamic data
model (`Value`), Python's equality / truthiness / ordering on it, the
dotted-path matcher `_match_path` / `_match_query` and the `search`
entry point, together with theorems about them.

Python's call stack is modelled with an explicit `fuel` parameter, and
runtime exceptions (`TypeError` from unordered comparisons,
`RecursionError` from unbounded recursion) with an `Except PyErr`
result. `re.match` is modelled by a boolean oracle parameter `reM`
(pattern text, subject text); a concrete instance for metacharacter-free
patterns is built from a small regular-expression semantics below.
`deepcopy` is the identity on this immutable model. -/

/-- One value of the dynamic data model manipulated by `list_search.py`:
the subset of Python values the engine works with (None, bool, int, str,
list, and dict with string keys).  Floats are outside the model. -/
inductive Value where
  | vnull
  | vbool (b : Bool)
  | vint (n : Int)
  | vstr (s : String)
  | vlist (xs : List Value)
  | vdict (kvs : List (String × Value))

mutual

/-- Python `==` on `Value` (the equality used throughout the source by
`item == element_or_query`, `object_from_list == search_value`, `in`
membership tests and dict comparison).  Mirrors CPython semantics on the
modelled fragment: `True == 1`, `False == 0`, `None == None`, lists compare
elementwise, dicts compare as key-value mappings; values of otherwise
distinct types are unequal. -/
def pyEq : Value → Value → Bool
  | .vnull, .vnull => true
  | .vbool a, .vbool b => a == b
  | .vbool a, .vint n => (if a then (1 : Int) else 0) == n
  | .vint n, .vbool b => n == (if b then (1 : Int) else 0)
  | .vint a, .vint b => a == b
  | .vstr a, .vstr b => a == b
  | .vlist xs, .vlist ys => pyEqList xs ys
  | .vdict xs, .vdict ys => xs.length == ys.length && pyEqDictSub xs ys
  | _, _ => false
termination_by structural a _ => a

/-- Elementwise Python equality of two lists. -/
def pyEqList : List Value → List Value → Bool
  | [], [] => true
  | x :: xs, y :: ys => pyEq x y && pyEqList xs ys
  | _, _ => false
termination_by structural xs _ => xs

/-- Every key of the first association list is present in the second with a
Python-equal value (together with a length check this is Python dict
equality). -/
def pyEqDictSub : List (String × Value) → List (String × Value) → Bool
  | [], _ => true
  | (k, v) :: rest, ys =>
      (match ys.find? (fun kv => kv.1 == k) with
       | some kv => pyEq v kv.2
       | none => false)
      && pyEqDictSub rest ys
termination_by structural xs _ => xs

end

/-- A Python runtime exception observable in the engine: `TypeError`
(e.g. an ordered comparison between non-comparable values) or
`RecursionError` (the interpreter's recursion limit; in the model,
exhaustion of the explicit fuel). -/
inductive PyErr where
  | typeError
  | recursionError

/-- Python truthiness `bool(·)` on the modelled values. -/
def pyBool : Value → Bool
  | .vnull => false
  | .vbool b => b
  | .vint n => n != 0
  | .vstr s => s != ""
  | .vlist xs => !xs.isEmpty
  | .vdict kvs => !kvs.isEmpty

/-- Python `str(·)` on the values the engine ever stringifies: the regex
stage applies it only to the `isinstance(item, str | int)` candidates,
i.e. strings, ints and bools.  On lists and dicts, which the engine never
stringifies, the model returns a placeholder. -/
def pyStr : Value → String
  | .vnull => "None"
  | .vbool b => if b then "True" else "False"
  | .vint n => toString n
  | .vstr s => s
  | .vlist _ => ""
  | .vdict _ => ""

/-- Code-point comparison of two character lists (Python string order). -/
def strCmp : List Char → List Char → Ordering
  | [], [] => .eq
  | [], _ :: _ => .lt
  | _ :: _, [] => .gt
  | a :: cs, b :: ds =>
    match compare a.toNat b.toNat with
    | .eq => strCmp cs ds
    | o => o

mutual

/-- Python's ordered comparison on the modelled values: numbers (ints and
bools) compare numerically, strings lexicographically by code point, lists
lexicographically (skipping `==`-equal prefixes, as CPython does); every
other combination raises `TypeError`. -/
def pyCmp : Value → Value → Except PyErr Ordering
  | .vint a, .vint b => .ok (compare a b)
  | .vint a, .vbool b => .ok (compare a (if b then 1 else 0))
  | .vbool a, .vint b => .ok (compare (if a then (1 : Int) else 0) b)
  | .vbool a, .vbool b => .ok (compare (if a then (1 : Int) else 0) (if b then 1 else 0))
  | .vstr a, .vstr b => .ok (strCmp a.data b.data)
  | .vlist xs, .vlist ys => pyCmpList xs ys
  | _, _ => .error .typeError
termination_by structural a _ => a

/-- Lexicographic comparison of two lists as CPython performs it: skip the
longest `==`-equal prefix, then compare the first differing pair (which may
raise `TypeError`); if one list is exhausted, compare lengths. -/
def pyCmpList : List Value → List Value → Except PyErr Ordering
  | [], [] => .ok .eq
  | [], _ :: _ => .ok .lt
  | _ :: _, [] => .ok .gt
  | x :: xs, y :: ys => if pyEq x y then pyCmpList xs ys else pyCmp x y
termination_by structural xs _ => xs

end

/-- `object_from_list > search_value` (line 143 of the source). -/
def pyGtB (a b : Value) : Except PyErr Bool := (pyCmp a b).map (fun o => o == .gt)

/-- `object_from_list >= search_value` (line 145 of the source). -/
def pyGeB (a b : Value) : Except PyErr Bool := (pyCmp a b).map (fun o => o == .gt || o == .eq)

/-- `object_from_list < search_value` (line 147 of the source). -/
def pyLtB (a b : Value) : Except PyErr Bool := (pyCmp a b).map (fun o => o == .lt)

/-- `object_from_list <= search_value` (line 149 of the source). -/
def pyLeB (a b : Value) : Except PyErr Bool := (pyCmp a b).map (fun o => o == .lt || o == .eq)

/-- Is the first character list a contiguous infix of the second
(Python's substring test)? -/
def isInfixL (needle : List Char) : List Char → Bool
  | [] => needle.isEmpty
  | c :: rest => needle.isPrefixOf (c :: rest) || isInfixL needle rest

/-- Python's `needle in container`: substring test on strings, `==`
membership on lists, key membership on dicts (unhashable needles raise
`TypeError`), `TypeError` on non-containers. -/
def pyIn (needle container : Value) : Except PyErr Bool :=
  match container with
  | .vstr s =>
    match needle with
    | .vstr sub => .ok (isInfixL sub.data s.data)
    | _ => .error .typeError
  | .vlist xs => .ok (xs.any (fun x => pyEq x needle))
  | .vdict kvs =>
    match needle with
    | .vstr k => .ok (kvs.any (fun kv => kv.1 == k))
    | .vlist _ => .error .typeError
    | .vdict _ => .error .typeError
    | _ => .ok false
  | _ => .error .typeError

/-- Python iteration over a value (used by the generator expressions
`... for item in object_from_list`): characters of a string, elements of a
list, keys of a dict; `TypeError` otherwise. -/
def pyIter : Value → Except PyErr (List Value)
  | .vstr s => .ok (s.data.map (fun c => .vstr (String.mk [c])))
  | .vlist xs => .ok xs
  | .vdict kvs => .ok (kvs.map (fun kv => .vstr kv.1))
  | _ => .error .typeError

/-- The operator dispatch of `_match_path`'s base case (lines 124-152 of
the source): the `match operator:` statement, whose unmatched operators
fall through to the final `return object_from_list == search_value`. -/
def evalOp (op : String) (object_from_list search_value : Value) : Except PyErr Bool :=
  match op with
  | "in" =>
    match search_value with
    | .vstr _ => pyIn search_value object_from_list
    | .vlist ys =>
      (pyIter object_from_list).map
        (fun items => items.all (fun item => ys.any (fun y => pyEq y item)))
    | _ => .ok (pyEq object_from_list search_value)
  | "any" =>
    match search_value with
    | .vstr _ => pyIn search_value object_from_list
    | .vlist ys =>
      (pyIter object_from_list).map
        (fun items => items.any (fun item => ys.any (fun y => pyEq y item)))
    | _ => .ok (pyEq object_from_list search_value)
  | "gt" => pyGtB object_from_list search_value
  | "gte" => pyGeB object_from_list search_value
  | "lt" => pyLtB object_from_list search_value
  | "lte" => pyLeB object_from_list search_value
  | "isnull" => .ok (!(pyEq (.vbool (pyBool object_from_list)) search_value))
  | _ => .ok (pyEq object_from_list search_value)

/-- Python `key.split(".")` on the character list of a key. -/
def splitOnDot : List Char → List (List Char)
  | [] => [[]]
  | c :: cs =>
    if c = '.' then [] :: splitOnDot cs
    else
      match splitOnDot cs with
      | s :: ss => (c :: s) :: ss
      | [] => [[c]]

/-- Python `key.split("__")`: split on each non-overlapping, leftmost
occurrence of a double underscore. -/
def splitOnDunder : List Char → List (List Char)
  | [] => [[]]
  | '_' :: '_' :: cs => [] :: splitOnDunder cs
  | c :: cs =>
    match splitOnDunder cs with
    | s :: ss => (c :: s) :: ss
    | [] => [[c]]

/-- `key.split(".")` as a list of strings (line 98 of the source). -/
def splitPath (key : String) : List String := (splitOnDot key.data).map String.mk

/-- Python `key.endswith(lookup)`. -/
def keyEndsWith (key lookup : String) : Bool := lookup.data.isSuffixOf key.data

/-- Python `key.startswith("__")`. -/
def keyStartsWithDunder (key : String) : Bool := ['_', '_'].isPrefixOf key.data

/-- The lookup-operator suffixes, in source order (lines 5-13). -/
def SUPPORTED_FILTERING_LOOKUPS : List String :=
  ["__in", "__any", "__gt", "__gte", "__lt", "__lte", "__isnull"]

/-- Lines 156-160 of the source: the operator carried by the *current path
segment* — `key.split("__")[-1]` when the segment ends with one of the
supported lookups, `None` otherwise. -/
def detectOp (key : String) : Option String :=
  if SUPPORTED_FILTERING_LOOKUPS.any (fun l => keyEndsWith key l) then
    some (String.mk ((splitOnDunder key.data).getLastD []))
  else none

/-- Lines 162-165 of the source: remove the first supported lookup suffix
(in list order) from the end of the segment. -/
def stripLookup (key : String) : String :=
  match SUPPORTED_FILTERING_LOOKUPS.find? (fun l => keyEndsWith key l) with
  | some l => String.mk (key.data.take (key.data.length - l.data.length))
  | none => key

/-- Python dict lookup by string key (`key in d` / `d[key]`). -/
def dlookup (k : String) : List (String × Value) → Option Value
  | [] => none
  | (k2, v) :: rest => if k2 == k then some v else dlookup k rest

/-- `_match_path` (lines 104-175 of the source), with explicit fuel for
the recursion: searching `search_value` in `object_from_list` by `path`.
The base case evaluates the remembered operator (or plain equality); the
descent case re-derives the operator from the current first segment,
strips the suffix, descends into dicts by key, and on a list re-applies
the same unconsumed path to the same list (consuming only fuel, exactly
as the source re-calls itself with unchanged arguments). -/
def match_path (fuel : Nat) (object_from_list : Value) (path : List String)
    (search_value : Value) (operator : Option String) : Except PyErr Bool :=
  match path with
  | [] =>
    match operator with
    | some op => evalOp op object_from_list search_value
    | none => .ok (pyEq object_from_list search_value)
  | key :: rest =>
    match fuel with
    | 0 => .error .recursionError
    | fuel' + 1 =>
      let op := detectOp key
      let k := stripLookup key
      match object_from_list with
      | .vdict kvs =>
        match dlookup k kvs with
        | some v => match_path fuel' v rest search_value op
        | none => .ok false
      | .vlist _ => match_path fuel' object_from_list path search_value op
      | _ => .ok false
termination_by structural fuel

/-- `_match_query` (lines 82-101 of the source): `object_from_list`
matches every `(key, search_value)` pair of the query, each key split on
dots into a path. -/
def match_query (fuel : Nat) (object_from_list : Value)
    (query : List (String × Value)) : Except PyErr Bool :=
  match query with
  | [] => .ok true
  | (key, search_value) :: rest =>
    match match_path fuel object_from_list (splitPath key) search_value none with
    | .ok true => match_query fuel object_from_list rest
    | .ok false => .ok false
    | .error e => .error e

/-- The field-matcher comprehension of line 70 of the source:
`[item for item in matches if _match_query(item, fields_query)]`, with the
first raised exception propagating. -/
def fieldStage (fuel : Nat) (fields_query : List (String × Value)) :
    List Value → Except PyErr (List Value)
  | [] => .ok []
  | item :: rest =>
    match match_query fuel item fields_query with
    | .ok true => (fieldStage fuel fields_query rest).map (fun r => item :: r)
    | .ok false => fieldStage fuel fields_query rest
    | .error e => .error e

/-- Python `lst[i]` for a possibly negative index: `none` models
`IndexError`. -/
def pyGet (lst : List Value) (i : Int) : Option Value :=
  if 0 ≤ i then lst.get? i.toNat
  else if 0 ≤ i + lst.length then lst.get? (i + lst.length).toNat
  else none

/-- `_get_element_or_query_by_index` (lines 75-79 of the source):
`lst[index]`, with `IndexError` turned into `None`. -/
def get_element_or_query_by_index (lst : List Value) (index : Int) : Value :=
  (pyGet lst index).getD .vnull

/-- Lines 48-51 of the source: resolve the `__index__` value to a Python
index — a positive int `n` (bools are ints) becomes `n - 1`, a
non-positive int becomes `0`, the string `"first"` becomes `0`, and any
other value becomes `-1`. -/
def indexPos : Value → Int
  | .vint n => if 0 < n then n - 1 else 0
  | .vbool _ => 0
  | .vstr s => if s == "first" then 0 else -1
  | _ => -1

/-- `isinstance(item, str | int)` (line 55 of the source; Python bools are
ints). -/
def isStrOrInt : Value → Bool
  | .vstr _ => true
  | .vint _ => true
  | .vbool _ => true
  | _ => false

/-- The `__regex__` stage (lines 54-61 of the source): filter the
string/int candidates by the `re.match` oracle `reM` on their string
representations, then keep the elements of the working set that occur (by
Python `==`) in that match list.  A non-string pattern raises `TypeError`
when the first candidate is tested (so only when a candidate exists).
(`matches` is a Lean keyword, so the source's variable is `working`
here.) -/
def regexStage (reM : String → String → Bool) (working : List Value)
    (pattern : Value) : Except PyErr (List Value) :=
  let element_or_queries_to_match := working.filter isStrOrInt
  match pattern with
  | .vstr p =>
    let match_res := element_or_queries_to_match.filter (fun item => reM p (pyStr item))
    .ok (working.filter (fun item => match_res.any (fun y => pyEq item y)))
  | _ =>
    if element_or_queries_to_match.isEmpty then .ok []
    else .error .typeError

/-- `search` (lines 16-72 of the source).  `reM` is the `re.match`
oracle, `fuel` bounds the recursion depth of `_match_path`; `deepcopy` is
the identity on immutable values.  A non-dict query exact-matches against
every element; a dict query runs the `__index__` stage, the `__regex__`
stage, and — when some key is a *truthy* non-dunder string (the source
tests `any(key for key in ...)`, so an empty-string key does not trigger
the stage) — the field-matcher stage over the non-dunder keys. -/
def search (reM : String → String → Bool) (fuel : Nat) (lst : List Value)
    (element_or_query : Value) : Except PyErr (List Value) :=
  match element_or_query with
  | .vdict kvs =>
    let m1 := match dlookup "__index__" kvs with
      | some index_val => [get_element_or_query_by_index lst (indexPos index_val)]
      | none => lst
    let m2 := match dlookup "__regex__" kvs with
      | some pat => regexStage reM m1 pat
      | none => .ok m1
    match m2 with
    | .error e => .error e
    | .ok m2v =>
      if kvs.any (fun kv => !keyStartsWithDunder kv.1 && !(kv.1 == "")) then
        fieldStage fuel (kvs.filter (fun kv => !keyStartsWithDunder kv.1)) m2v
      else .ok m2v
  | _ => .ok (lst.filter (fun item => pyEq item element_or_query))

/-! ## A small regular-expression semantics

Modelled from the spec: `re.match(pattern, s)` succeeds iff the regular
expression matches at the *start* of `s` — i.e. some prefix of `s` is in
the pattern's language (prefix match, not full-string, not
search-anywhere).  The pattern language is given as an abstract syntax
tree with Brzozowski-derivative acceptance. -/

/-- Regular-expression abstract syntax. -/
inductive RE where
  | emp
  | eps
  | chr (c : Char)
  | alt (r1 r2 : RE)
  | cat (r1 r2 : RE)
  | star (r : RE)

/-- Does the regular expression accept the empty word? -/
def RE.nullable : RE → Bool
  | .emp => false
  | .eps => true
  | .chr _ => false
  | .alt r1 r2 => r1.nullable || r2.nullable
  | .cat r1 r2 => r1.nullable && r2.nullable
  | .star _ => true

/-- Brzozowski derivative by one character. -/
def RE.deriv : RE → Char → RE
  | .emp, _ => .emp
  | .eps, _ => .emp
  | .chr c, a => if c == a then .eps else .emp
  | .alt r1 r2, a => .alt (r1.deriv a) (r2.deriv a)
  | .cat r1 r2, a =>
    if r1.nullable then .alt (.cat (r1.deriv a) r2) (r2.deriv a)
    else .cat (r1.deriv a) r2
  | .star r, a => .cat (r.deriv a) (.star r)

/-- Full-word acceptance via derivatives. -/
def RE.acceptsL : RE → List Char → Bool
  | r, [] => r.nullable
  | r, c :: cs => (r.deriv c).acceptsL cs

/-- `re.match` semantics: the expression accepts some prefix of the word. -/
def RE.prefMatch : RE → List Char → Bool
  | r, [] => r.nullable
  | r, c :: cs => r.nullable || (r.deriv c).prefMatch cs

/-- The regex denoted by a metacharacter-free pattern: the concatenation
of its characters. -/
def reOfLit (p : String) : RE := p.data.foldr (fun c r => .cat (.chr c) r) .eps

/-- Modelled from the spec: the `re.match` oracle for metacharacter-free
patterns — `re.match(p, s)` succeeds iff `p`'s language contains a prefix
of `s` (anchored-at-start match). -/
def reMLit (p s : String) : Bool := (reOfLit p).prefMatch s.data

/-! ## Helper notions and lemmas -/

/-- Is the query a Python mapping? (`isinstance(element_or_query, dict)`,
line 43 of the source.) -/
def isDict : Value → Bool
  | .vdict _ => true
  | _ => false

/-- Did a boolean-returning evaluation succeed with `True`? -/
def isOkTrue : Except PyErr Bool → Bool
  | .ok true => true
  | _ => false

theorem any_filter_comp {α : Type} (p q : α → Bool) (l : List α) :
    (l.filter p).any q = l.any (fun a => p a && q a) := by
  induction l with
  | nil => rfl
  | cons x xs ih => cases hp : p x <;> simp [List.filter_cons, hp, ih]

theorem filter_filter_comp {α : Type} (p q : α → Bool) (l : List α) :
    (l.filter p).filter q = l.filter (fun a => p a && q a) := by
  induction l with
  | nil => rfl
  | cons x xs ih => cases hp : p x <;> simp [List.filter_cons, hp, ih]

/-- A successful run of the field-matcher comprehension computes exactly
the filter of its input by "`_match_query` returned `True`". -/
theorem fieldStage_ok_filter (fuel : Nat) (fq : List (String × Value)) :
    ∀ (xs r : List Value), fieldStage fuel fq xs = .ok r →
      r = xs.filter (fun x => isOkTrue (match_query fuel x fq)) := by
  intro xs
  induction xs with
  | nil =>
    intro r h
    simp only [fieldStage] at h
    cases h
    rfl
  | cons x rest ih =>
    intro r h
    simp only [fieldStage] at h
    cases hmq : match_query fuel x fq with
    | error e => rw [hmq] at h; cases h
    | ok b =>
      cases b
      · rw [hmq] at h
        simp [List.filter_cons, hmq, isOkTrue, ih r h]
      · rw [hmq] at h
        cases hfs : fieldStage fuel fq rest with
        | error e => rw [hfs] at h; cases h
        | ok r2 =>
          rw [hfs] at h
          cases h
          simp [List.filter_cons, hmq, isOkTrue, ih r2 hfs]

theorem fieldStage_ok_sublist (fuel : Nat) (fq : List (String × Value))
    (xs r : List Value) (h : fieldStage fuel fq xs = .ok r) : r.Sublist xs := by
  rw [fieldStage_ok_filter fuel fq xs r h]
  exact List.filter_sublist xs

/-- A successful run of the regex stage outputs a positional subset of its
input working set. -/
theorem regexStage_ok_sublist (reM : String → String → Bool) (working : List Value)
    (pattern : Value) (r : List Value) (h : regexStage reM working pattern = .ok r) :
    r.Sublist working := by
  cases pattern with
  | vstr p =>
    simp only [regexStage] at h
    cases h
    exact List.filter_sublist working
  | vnull =>
    simp only [regexStage] at h
    split at h
    · cases h
      simp
    · cases h
  | vbool b =>
    simp only [regexStage] at h
    split at h
    · cases h
      simp
    · cases h
  | vint n =>
    simp only [regexStage] at h
    split at h
    · cases h
      simp
    · cases h
  | vlist xs =>
    simp only [regexStage] at h
    split at h
    · cases h
      simp
    · cases h
  | vdict kvs =>
    simp only [regexStage] at h
    split at h
    · cases h
      simp
    · cases h

/-- `_match_query` on a non-empty query is the conjunction of its first
condition and the rest (with a raised exception counting as `False`). -/
theorem match_query_cons_isOkTrue (fuel : Nat) (x : Value) (key : String)
    (sv : Value) (rest : List (String × Value)) :
    isOkTrue (match_query fuel x ((key, sv) :: rest))
      = (isOkTrue (match_query fuel x [(key, sv)]) && isOkTrue (match_query fuel x rest)) := by
  cases h : match_path fuel x (splitPath key) sv none with
  | error e => simp [match_query, h, isOkTrue]
  | ok b => cases b <;> simp [match_query, h, isOkTrue]

/-- A key that does not start with a double underscore is distinct from a
reserved key that does. -/
theorem key_ne_reserved {k s : String} (hk : keyStartsWithDunder k = false)
    (hs : keyStartsWithDunder s = true) : (k == s) = false := by
  cases h : k == s
  · rfl
  · have hks : k = s := eq_of_beq h
    rw [hks, hs] at hk
    cases hk

/-- When the dict query triggers neither reserved stage and its non-dunder
keys are all kept by the field filter, `search` is exactly the
field-matcher stage. -/
theorem search_fields_only (reM : String → String → Bool) (fuel : Nat)
    (L : List Value) (kvs : List (String × Value))
    (hidx : dlookup "__index__" kvs = none)
    (hre : dlookup "__regex__" kvs = none)
    (htrig : kvs.any (fun kv => !keyStartsWithDunder kv.1 && !(kv.1 == "")) = true)
    (hfq : kvs.filter (fun kv => !keyStartsWithDunder kv.1) = kvs) :
    search reM fuel L (.vdict kvs) = fieldStage fuel kvs L := by
  simp [search, hidx, hre, htrig, hfq]

/-- The positionally last element is the one at index `length - 1`. -/
theorem get?_last_aux : ∀ (x : Value) (xs : List Value),
    (x :: xs).get? xs.length = (x :: xs).getLast?
  | _, [] => rfl
  | x, y :: ys => by
    rw [List.length_cons, List.get?_cons_succ, List.getLast?_cons_cons]
    exact get?_last_aux y ys

/-- C1: `__index__` selection semantics.  With a single `__index__` key the
result of `search` is the one-element list produced by the index stage; a
positive integer `n` resolves to the element at 1-based position `n` of
the working set, a non-positive integer to position 0, `"first"` to
position 0 and `"last"` to the last position; an out-of-range position
yields the absent marker `None` (`.vnull`), as in
`search([], {"__index__": 1}) = [None]`. -/
theorem search_index_semantics :
    (∀ (reM : String → String → Bool) (fuel : Nat) (L : List Value) (iv : Value),
      search reM fuel L (.vdict [("__index__", iv)])
        = .ok [get_element_or_query_by_index L (indexPos iv)])
    ∧ (∀ (L : List Value) (n : Int), 0 < n →
      get_element_or_query_by_index L (indexPos (.vint n))
        = (L.get? (n - 1).toNat).getD .vnull)
    ∧ (∀ (L : List Value) (n : Int), n ≤ 0 →
      get_element_or_query_by_index L (indexPos (.vint n)) = (L.get? 0).getD .vnull)
    ∧ (∀ L : List Value,
      get_element_or_query_by_index L (indexPos (.vstr "first")) = (L.get? 0).getD .vnull)
    ∧ (∀ L : List Value,
      get_element_or_query_by_index L (indexPos (.vstr "last")) = L.getLast?.getD .vnull)
    ∧ search reMLit 1 [] (.vdict [("__index__", .vint 1)]) = .ok [.vnull] := by
  refine ⟨fun reM fuel L iv => rfl, ?_, ?_, fun L => rfl, ?_, rfl⟩
  · intro L n hn
    simp [get_element_or_query_by_index, indexPos, pyGet, hn, show (0:Int) ≤ n - 1 by omega]
  · intro L n hn
    have h1 : ¬ (0 < n) := by omega
    simp [get_element_or_query_by_index, indexPos, pyGet, h1]
  · intro L
    cases L with
    | nil => rfl
    | cons x xs =>
      have hidx : indexPos (.vstr "last") = -1 := rfl
      have hneg : ¬ ((0:Int) ≤ -1) := by omega
      have hlen : (0:Int) ≤ -1 + ((x :: xs).length : Int) := by
        simp [List.length_cons]
      have harith : ((-1 : Int) + ((x :: xs).length : Int)).toNat = xs.length := by
        simp [List.length_cons]
      rw [hidx]
      unfold get_element_or_query_by_index pyGet
      rw [if_neg hneg, if_pos hlen, harith, get?_last_aux]

/-- Concrete instance of the `__index__` semantics: position 2 of a
two-element list is its second element. -/
theorem search_index_semantics_witness :
    (0:Int) < 2
    ∧ search reMLit 1 [.vint 7, .vint 8] (.vdict [("__index__", .vint 2)]) = .ok [.vint 8] := by
  refine ⟨by decide, ?_⟩
  rw [search_index_semantics.1 reMLit 1 [.vint 7, .vint 8] (.vint 2),
    search_index_semantics.2.1 [.vint 7, .vint 8] 2 (by decide)]
  rfl

/-- Descending into a list with a non-empty remaining path re-calls
`_match_path` with unchanged arguments, so every recursion budget is
exhausted. -/
theorem match_path_list_nonempty_path_no_fuel :
    ∀ (fuel : Nat) (xs : List Value) (key : String) (rest : List String)
      (sv : Value) (op : Option String),
      match_path fuel (.vlist xs) (key :: rest) sv op = .error .recursionError := by
  intro fuel
  induction fuel with
  | zero => intro xs key rest sv op; rfl
  | succ f ih => intro xs key rest sv op; exact ih xs key rest sv (detectOp key)

/-- C2: the termination claim fails — when path descent reaches a list
element with a non-empty remaining path (here the element `[1]` under the
field condition `{"a": 1}`), `_match_path` re-applies the same unconsumed
path to the same list forever: for every recursion budget `fuel` the call
exceeds it (Python: `RecursionError`), so `search` is not bounded by the
nesting depth of the data. -/
theorem search_list_descent_never_terminates :
    ∀ (reM : String → String → Bool) (fuel : Nat),
      search reM fuel [.vlist [.vint 1]] (.vdict [("a", .vint 1)])
        = .error .recursionError := by
  intro reM fuel
  rw [search_fields_only reM fuel [.vlist [.vint 1]] [("a", .vint 1)] rfl rfl rfl rfl]
  have hq : match_query fuel (.vlist [.vint 1]) [("a", .vint 1)] = .error .recursionError := by
    have h := match_path_list_nonempty_path_no_fuel fuel [.vint 1] "a" [] (.vint 1) none
    simp [match_query, show splitPath "a" = ["a"] from rfl, h]
  simp [fieldStage, hq]

/-- C8: a query that is not a mapping is matched by exact equality against
every element of the (deep-copied) collection, preserving relative order
(the result is the equality filter, a sublist of the input), and no error
is raised. -/
theorem search_nondict_exact_match (reM : String → String → Bool) (fuel : Nat)
    (L : List Value) (q : Value) (h : isDict q = false) :
    search reM fuel L q = .ok (L.filter (fun item => pyEq item q))
    ∧ (L.filter (fun item => pyEq item q)).Sublist L := by
  refine ⟨?_, List.filter_sublist L⟩
  cases q with
  | vdict kvs => simp [isDict] at h
  | vnull => rfl
  | vbool b => rfl
  | vint n => rfl
  | vstr s => rfl
  | vlist xs => rfl

/-- Concrete instance of exact-match filtering: the scalar query `5` keeps
exactly the element equal to `5`. -/
theorem search_nondict_exact_match_witness :
    isDict (.vint 5) = false
    ∧ search reMLit 1 [.vint 5, .vint 3, .vbool true] (.vint 5)
        = .ok ([.vint 5, .vint 3, .vbool true].filter (fun item => pyEq item (.vint 5)))
    ∧ ([.vint 5, .vint 3, .vbool true].filter (fun item => pyEq item (.vint 5))) = [.vint 5] :=
  ⟨rfl, (search_nondict_exact_match reMLit 1 [.vint 5, .vint 3, .vbool true] (.vint 5) rfl).1,
    rfl⟩

/-- C10: a mapping query all of whose keys start with `__` but which
contains neither `__index__` nor `__regex__` (including the empty mapping
and unrecognised dunder keys) triggers no stage: `search` returns the
whole (copied) collection. -/
theorem search_dunder_only_identity (reM : String → String → Bool) (fuel : Nat)
    (L : List Value) (kvs : List (String × Value))
    (hall : ∀ kv ∈ kvs, keyStartsWithDunder kv.1 = true)
    (hidx : dlookup "__index__" kvs = none)
    (hre : dlookup "__regex__" kvs = none) :
    search reM fuel L (.vdict kvs) = .ok L := by
  have hcond : kvs.any (fun kv => !keyStartsWithDunder kv.1 && !(kv.1 == "")) = false := by
    rw [List.any_eq_false]
    intro kv hkv
    simp [hall kv hkv]
  simp [search, hidx, hre, hcond]

/-- Concrete instances of the dunder-only identity: the unrecognised
dunder query `{"__foo__": 1}` and the empty query `{}` filter nothing. -/
theorem search_dunder_only_identity_witness :
    search reMLit 1 [.vint 7] (.vdict [("__foo__", .vint 1)]) = .ok [.vint 7]
    ∧ search reMLit 1 [.vint 7] (.vdict []) = .ok [.vint 7] :=
  ⟨search_dunder_only_identity reMLit 1 [.vint 7] [("__foo__", .vint 1)]
      (by intro kv hkv; rw [List.mem_singleton] at hkv; subst hkv; rfl) rfl rfl,
    search_dunder_only_identity reMLit 1 [.vint 7] []
      (by intro kv hkv; cases hkv) rfl rfl⟩

/-- C3 counterexample: an ordered comparison between non-order-comparable
values aborts the whole call — `search([{"a": "x"}], {"a__gt": 1})`
evaluates `"x" > 1` and raises `TypeError` instead of treating the
element as non-matching. -/
theorem search_gt_type_mismatch_raises :
    search reMLit 2 [.vdict [("a", .vstr "x")]] (.vdict [("a__gt", .vint 1)])
      = .error .typeError := rfl

/-- Each of the four ordered operators evaluates the bare Python
comparison, so a non-comparable operand pair makes it raise the
comparison's error rather than return `False`. -/
theorem evalOp_ordered_error (op : String)
    (hop : op ∈ (["gt", "gte", "lt", "lte"] : List String))
    (v sv : Value) (e : PyErr) (h : pyCmp v sv = .error e) :
    evalOp op v sv = .error e := by
  simp only [List.mem_cons, List.not_mem_nil, or_false] at hop
  rcases hop with rfl | rfl | rfl | rfl
  · rw [show evalOp "gt" v sv = pyGtB v sv from rfl]
    unfold pyGtB
    rw [h]
    rfl
  · rw [show evalOp "gte" v sv = pyGeB v sv from rfl]
    unfold pyGeB
    rw [h]
    rfl
  · rw [show evalOp "lt" v sv = pyLtB v sv from rfl]
    unfold pyLtB
    rw [h]
    rfl
  · rw [show evalOp "lte" v sv = pyLeB v sv from rfl]
    unfold pyLeB
    rw [h]
    rfl

/-- At path exhaustion a pending operator is evaluated by the operator
dispatch. -/
theorem match_path_nil_some (fuel : Nat) (v sv : Value) (op : String) :
    match_path fuel v [] sv (some op) = evalOp op v sv := by
  cases fuel
  · rfl
  · rfl

/-- One dict-descent step of `_match_path`: when the (suffix-stripped)
segment key is present, descend into its value with the segment's
operator. -/
theorem match_path_dict_descend (fuel : Nat) (kvs : List (String × Value)) (key : String)
    (rest : List String) (sv : Value) (op : Option String) (v : Value)
    (hv : dlookup (stripLookup key) kvs = some v) :
    match_path (fuel + 1) (.vdict kvs) (key :: rest) sv op
      = match_path fuel v rest sv (detectOp key) := by
  have h1 : match_path (fuel + 1) (.vdict kvs) (key :: rest) sv op
      = (match dlookup (stripLookup key) kvs with
         | some v2 => match_path fuel v2 rest sv (detectOp key)
         | none => .ok false) := rfl
  rw [h1, hv]

/-- The field-matcher comprehension propagates the first raised exception:
if every element before `x` evaluates without error and `x`'s evaluation
raises, the whole stage raises. -/
theorem fieldStage_append_error (fuel : Nat) (fq : List (String × Value)) :
    ∀ (pre : List Value) (x : Value) (post : List Value) (e : PyErr),
      (∀ y ∈ pre, ∃ b, match_query fuel y fq = .ok b) →
      match_query fuel x fq = .error e →
      fieldStage fuel fq (pre ++ x :: post) = .error e := by
  intro pre
  induction pre with
  | nil =>
    intro x post e _ hx
    simp [fieldStage, hx]
  | cons y ys ih =>
    intro x post e hpre hx
    obtain ⟨b, hb⟩ := hpre y (by simp)
    have hrest := ih x post e (fun z hz => hpre z (by simp [hz])) hx
    cases b
    · simp [fieldStage, hb, hrest]
    · simp [fieldStage, hb, hrest, Except.map]

/-- C3 (amended): for every one of the ordered operators `__gt`, `__gte`,
`__lt`, `__lte`, when the descended value and the condition value are not
order-comparable the comparison raises and the exception propagates out of
`search` instead of fail-closed dropping the element: (i) each of the four
operators turns a failing comparison into the raised error; (ii) the
pending operator is evaluated once the path is exhausted; (iii) for every
key the code detects as carrying one of the four operators, every dict
element containing the stripped key, every position of that element in the
collection (earlier elements evaluating without error) and every
non-comparable value pair, the whole `search` call returns the comparison
error. -/
theorem search_incomparable_ordered_propagates :
    (∀ op, op ∈ (["gt", "gte", "lt", "lte"] : List String) →
      ∀ (v sv : Value) (e : PyErr), pyCmp v sv = .error e → evalOp op v sv = .error e)
    ∧ (∀ (fuel : Nat) (v sv : Value) (op : String),
      match_path fuel v [] sv (some op) = evalOp op v sv)
    ∧ (∀ op, op ∈ (["gt", "gte", "lt", "lte"] : List String) →
      ∀ (reM : String → String → Bool) (fuel : Nat) (pre post : List Value)
        (key : String) (kvs : List (String × Value)) (v sv : Value) (e : PyErr),
        keyStartsWithDunder key = false → (key == "") = false →
        splitPath key = [key] → detectOp key = some op →
        dlookup (stripLookup key) kvs = some v → pyCmp v sv = .error e →
        (∀ y ∈ pre, ∃ b, match_query (fuel + 2) y [(key, sv)] = .ok b) →
        search reM (fuel + 2) (pre ++ .vdict kvs :: post) (.vdict [(key, sv)])
          = .error e) := by
  refine ⟨fun op hop v sv e h => evalOp_ordered_error op hop v sv e h,
    fun fuel v sv op => match_path_nil_some fuel v sv op, ?_⟩
  intro op hop reM fuel pre post key kvs v sv e hk1 hk2 hsp hdet hdl hcmp hpre
  have hki : (key == "__index__") = false := key_ne_reserved hk1 rfl
  have hkr : (key == "__regex__") = false := key_ne_reserved hk1 rfl
  rw [search_fields_only reM (fuel + 2) (pre ++ .vdict kvs :: post) [(key, sv)]
    (by simp [dlookup, hki]) (by simp [dlookup, hkr])
    (by simp [hk1, hk2]) (by simp [hk1])]
  have hmp : match_path (fuel + 2) (.vdict kvs) [key] sv none = .error e := by
    show match_path ((fuel + 1) + 1) (.vdict kvs) [key] sv none = .error e
    rw [match_path_dict_descend (fuel + 1) kvs key [] sv none v hdl, hdet,
      match_path_nil_some (fuel + 1) v sv op]
    exact evalOp_ordered_error op hop v sv e hcmp
  have hmq : match_query (fuel + 2) (.vdict kvs) [(key, sv)] = .error e := by
    simp [match_query, hsp, hmp]
  exact fieldStage_append_error (fuel + 2) [(key, sv)] pre (.vdict kvs) post e hpre hmq

/-- Concrete instance: `"x"` and `1` are not order-comparable under
`__gte`, and the `TypeError` raised at the second element of a
three-element collection reaches the caller of `search`. -/
theorem search_incomparable_ordered_propagates_witness :
    search reMLit 2 [.vint 9, .vdict [("a", .vstr "x")], .vnull]
      (.vdict [("a__gte", .vint 1)]) = .error .typeError :=
  search_incomparable_ordered_propagates.2.2 "gte" (by decide) reMLit 0
    [.vint 9] [.vnull] "a__gte" [("a", .vstr "x")] (.vstr "x") (.vint 1) .typeError
    rfl rfl rfl rfl rfl rfl
    (fun y hy => by
      rw [List.mem_singleton] at hy
      subst hy
      exact ⟨false, rfl⟩)

/-- A query that is not a mapping always produces the exact-equality
filter of the collection. -/
theorem search_nondict_filter (reM : String → String → Bool) (fuel : Nat)
    (L : List Value) (q : Value) (h : isDict q = false) :
    search reM fuel L q = .ok (L.filter (fun item => pyEq item q)) := by
  cases q with
  | vdict kvs => simp [isDict] at h
  | vnull => rfl
  | vbool b => rfl
  | vint n => rfl
  | vstr s => rfl
  | vlist xs => rfl

/-- Unfolding of `search` on a mapping query without `__index__`. -/
theorem search_dict_noindex_unfold (reM : String → String → Bool) (fuel : Nat)
    (L : List Value) (kvs : List (String × Value))
    (hidx : dlookup "__index__" kvs = none) :
    search reM fuel L (.vdict kvs)
      = match (match dlookup "__regex__" kvs with
               | some pat => regexStage reM L pat
               | none => .ok L) with
        | .error e => .error e
        | .ok m2v =>
          if kvs.any (fun kv => !keyStartsWithDunder kv.1 && !(kv.1 == "")) then
            fieldStage fuel (kvs.filter (fun kv => !keyStartsWithDunder kv.1)) m2v
          else .ok m2v := by
  simp [search, hidx]

/-- C4 counterexample: monotonic narrowing fails on an out-of-range
`__index__` — `search([], {"__index__": 1})` returns the one-element list
`[None]`, which is longer than the empty input. -/
theorem search_index_result_longer_than_input :
    search reMLit 1 [] (.vdict [("__index__", .vint 1)]) = .ok [.vnull]
    ∧ ¬ (([Value.vnull] : List Value).length ≤ ([] : List Value).length) :=
  ⟨rfl, by decide⟩

/-- C4 (amended): for every query that is not a mapping containing
`__index__`, a successful `search` returns a positional subset of the
input collection (each internal stage filters its working set), so its
length is at most the input's. -/
theorem search_monotonic_without_index (reM : String → String → Bool) (fuel : Nat)
    (L : List Value) (q : Value) (r : List Value)
    (hidx : ∀ kvs, q = .vdict kvs → dlookup "__index__" kvs = none)
    (h : search reM fuel L q = .ok r) :
    r.Sublist L ∧ r.length ≤ L.length := by
  suffices hs : r.Sublist L from ⟨hs, hs.length_le⟩
  cases q with
  | vdict kvs =>
    rw [search_dict_noindex_unfold reM fuel L kvs (hidx kvs rfl)] at h
    cases hre : dlookup "__regex__" kvs with
    | none =>
      simp only [hre] at h
      by_cases hc : kvs.any (fun kv => !keyStartsWithDunder kv.1 && !(kv.1 == "")) = true
      · rw [if_pos hc] at h
        exact fieldStage_ok_sublist _ _ _ _ h
      · rw [if_neg hc] at h
        injection h with h2
        rw [← h2]
    | some pat =>
      simp only [hre] at h
      cases hreg : regexStage reM L pat with
      | error e =>
        simp only [hreg] at h
        exact Except.noConfusion h
      | ok m2v =>
        simp only [hreg] at h
        have hsub1 : m2v.Sublist L := regexStage_ok_sublist reM L pat m2v hreg
        by_cases hc : kvs.any (fun kv => !keyStartsWithDunder kv.1 && !(kv.1 == "")) = true
        · rw [if_pos hc] at h
          exact (fieldStage_ok_sublist _ _ _ _ h).trans hsub1
        · rw [if_neg hc] at h
          injection h with h2
          rw [← h2]
          exact hsub1
  | vnull =>
    rw [search_nondict_filter reM fuel L (.vnull) rfl] at h
    injection h with h2
    rw [← h2]
    exact List.filter_sublist L
  | vbool b =>
    rw [search_nondict_filter reM fuel L (.vbool b) rfl] at h
    injection h with h2
    rw [← h2]
    exact List.filter_sublist L
  | vint n =>
    rw [search_nondict_filter reM fuel L (.vint n) rfl] at h
    injection h with h2
    rw [← h2]
    exact List.filter_sublist L
  | vstr s =>
    rw [search_nondict_filter reM fuel L (.vstr s) rfl] at h
    injection h with h2
    rw [← h2]
    exact List.filter_sublist L
  | vlist xs =>
    rw [search_nondict_filter reM fuel L (.vlist xs) rfl] at h
    injection h with h2
    rw [← h2]
    exact List.filter_sublist L

/-- Concrete instance of monotonic narrowing: the empty mapping query
keeps the whole one-element collection, a sublist of itself. -/
theorem search_monotonic_without_index_witness :
    search reMLit 1 [.vint 3] (.vdict []) = .ok [.vint 3]
    ∧ ([Value.vint 3] : List Value).Sublist [.vint 3]
    ∧ ([Value.vint 3] : List Value).length ≤ ([Value.vint 3] : List Value).length := by
  refine ⟨rfl, ?_, ?_⟩
  · exact (search_monotonic_without_index reMLit 1 [.vint 3] (.vdict []) [.vint 3]
      (fun kvs hk => by cases hk; rfl) rfl).1
  · exact (search_monotonic_without_index reMLit 1 [.vint 3] (.vdict []) [.vint 3]
      (fun kvs hk => by cases hk; rfl) rfl).2

/-- C5 counterexample: the regex stage does not keep exactly the scalar
candidates whose string representation is matched — the final membership
test compares by Python `==`, so `True` (string form `"True"`, not
matched by the pattern `"1"`) is kept because it is Python-equal to the
matched candidate `1`. -/
theorem search_regex_keeps_equal_alias :
    search reMLit 5 [.vint 1, .vbool true] (.vdict [("__regex__", .vstr "1")])
      = .ok [.vint 1, .vbool true]
    ∧ isStrOrInt (.vbool true) = true
    ∧ pyStr (.vbool true) = "True"
    ∧ reMLit "1" (pyStr (.vbool true)) = false
    ∧ pyEq (.vbool true) (.vint 1) = true :=
  ⟨rfl, rfl, rfl, rfl, rfl⟩

/-- C5 (amended): the `__regex__` stage keeps exactly the elements of the
working set that are Python-equal to some scalar string/int candidate of
the working set whose string representation the `re.match` oracle accepts;
and the modelled `re.match` is anchored at the start — a regular
expression pre-matches a word iff it accepts some prefix of it (prefix
match, not full-string, not search-anywhere, as the two concrete `reMLit`
facts illustrate). -/
theorem search_regex_stage_characterization :
    (∀ (reM : String → String → Bool) (p : String) (working : List Value),
      regexStage reM working (.vstr p)
        = .ok (working.filter (fun x =>
            working.any (fun y => isStrOrInt y && (reM p (pyStr y) && pyEq x y)))))
    ∧ (∀ (reM : String → String → Bool) (fuel : Nat) (L : List Value) (p : String),
      search reM fuel L (.vdict [("__regex__", .vstr p)])
        = .ok (L.filter (fun x =>
            L.any (fun y => isStrOrInt y && (reM p (pyStr y) && pyEq x y)))))
    ∧ (∀ (r : RE) (cs : List Char), r.prefMatch cs = cs.inits.any (fun q => r.acceptsL q))
    ∧ reMLit "ab" "abc" = true
    ∧ reMLit "b" "abc" = false := by
  have hstage : ∀ (reM : String → String → Bool) (p : String) (working : List Value),
      regexStage reM working (.vstr p)
        = .ok (working.filter (fun x =>
            working.any (fun y => isStrOrInt y && (reM p (pyStr y) && pyEq x y)))) := by
    intro reM p working
    have h : (fun x => ((working.filter isStrOrInt).filter
          (fun item => reM p (pyStr item))).any (fun y => pyEq x y))
        = (fun x => working.any (fun y => isStrOrInt y && (reM p (pyStr y) && pyEq x y))) := by
      funext x
      rw [any_filter_comp, any_filter_comp]
    simp only [regexStage]
    rw [h]
  have hpref : ∀ (cs : List Char) (r : RE),
      r.prefMatch cs = cs.inits.any (fun q => r.acceptsL q) := by
    intro cs
    induction cs with
    | nil =>
      intro r
      rw [show ([] : List Char).inits = [[]] from rfl]
      simp [RE.prefMatch, RE.acceptsL]
    | cons c cs ih =>
      intro r
      rw [List.inits_cons]
      simp only [List.any_cons, List.any_map]
      have h1 : RE.prefMatch r (c :: cs) = (r.nullable || (r.deriv c).prefMatch cs) := rfl
      have h2 : RE.acceptsL r [] = r.nullable := rfl
      rw [h1, h2, ih (r.deriv c)]
      rfl
  refine ⟨hstage, ?_, fun r cs => hpref cs r, rfl, rfl⟩
  intro reM fuel L p
  simp only [search,
    show dlookup "__index__" [("__regex__", Value.vstr p)] = none from rfl,
    show dlookup "__regex__" [("__regex__", Value.vstr p)] = some (Value.vstr p) from rfl,
    hstage reM p L]
  simp [show (List.any [("__regex__", Value.vstr p)]
    (fun kv => !keyStartsWithDunder kv.1 && !(kv.1 == ""))) = false from rfl]

/-- C6 counterexample: the operator suffix is recognised on the current
path segment, not on the whole original key — the key `"a__in.b"` ends
with no supported lookup, yet its non-final segment `"a__in"` is treated
as carrying `__in` and is stripped to `"a"`, so the query matches
`[{"a": {"b": 1}}]` (a whole-key check would keep `"a__in"` intact and
match nothing). -/
theorem search_nonfinal_segment_operator_stripped :
    search reMLit 3 [.vdict [("a", .vdict [("b", .vint 1)])]] (.vdict [("a__in.b", .vint 1)])
      = .ok [.vdict [("a", .vdict [("b", .vint 1)])]]
    ∧ SUPPORTED_FILTERING_LOOKUPS.all (fun l => !keyEndsWith "a__in.b" l) = true
    ∧ splitPath "a__in.b" = ["a__in", "b"]
    ∧ detectOp "a__in" = some "in"
    ∧ stripLookup "a__in" = "a" :=
  ⟨rfl, rfl, rfl, rfl, rfl⟩

/-- C6 (amended): operator recognition is per segment, at descent time —
the operator parameter passed into a recursive call is ignored whenever
the remaining path is non-empty (it is re-derived from the current first
segment and applied only once the path is exhausted), and descent into a
dict strips the recognised suffix from the current segment while
remembering that segment's operator. -/
theorem match_path_segment_operator_semantics :
    (∀ (fuel : Nat) (obj : Value) (path : List String) (sv : Value) (op1 op2 : Option String),
      path ≠ [] → match_path fuel obj path sv op1 = match_path fuel obj path sv op2)
    ∧ (∀ (fuel : Nat) (kvs : List (String × Value)) (key : String) (rest : List String)
        (sv : Value) (op : Option String) (v : Value),
        dlookup (stripLookup key) kvs = some v →
        match_path (fuel + 1) (.vdict kvs) (key :: rest) sv op
          = match_path fuel v rest sv (detectOp key)) := by
  constructor
  · intro fuel obj path sv op1 op2 hne
    cases path with
    | nil => exact absurd rfl hne
    | cons key rest =>
      cases fuel with
      | zero => rfl
      | succ f => rfl
  · intro fuel kvs key rest sv op v hv
    have h1 : match_path (fuel + 1) (.vdict kvs) (key :: rest) sv op
        = (match dlookup (stripLookup key) kvs with
           | some v2 => match_path fuel v2 rest sv (detectOp key)
           | none => .ok false) := rfl
    rw [h1, hv]

/-- Concrete instance of per-segment operator handling: the segment
`"a__gt"` is stripped (descending to the value under `"a"`), and the
operator argument is irrelevant while the path is non-empty. -/
theorem match_path_segment_operator_semantics_witness :
    match_path 1 (.vdict [("a", .vnull)]) ["a__gt"] (.vint 0) none
      = match_path 0 .vnull [] (.vint 0) (detectOp "a__gt")
    ∧ match_path 2 (.vlist []) ["x"] .vnull none
      = match_path 2 (.vlist []) ["x"] .vnull (some "gt") :=
  ⟨match_path_segment_operator_semantics.2 0 [("a", .vnull)] "a__gt" [] (.vint 0) none .vnull rfl,
    match_path_segment_operator_semantics.1 2 (.vlist []) ["x"] .vnull none (some "gt")
      (List.cons_ne_nil "x" [])⟩

/-- C7 counterexample: conjunction fails for the empty-string key — the
source's stage trigger `any(key for key in ...)` tests the truthiness of
the keys themselves, so the single-key query `{"": 5}` filters nothing
while the two-key query `{"": 5, "b": 1}` applies both conditions; the
two-key result `[]` differs from the positional intersection (the whole
one-element collection) of the two single-key results. -/
theorem search_conjunction_empty_key_counterexample :
    search reMLit 3 [.vdict [("b", .vint 1)]] (.vdict [("", .vint 5), ("b", .vint 1)]) = .ok []
    ∧ search reMLit 3 [.vdict [("b", .vint 1)]] (.vdict [("", .vint 5)])
        = .ok [.vdict [("b", .vint 1)]]
    ∧ search reMLit 3 [.vdict [("b", .vint 1)]] (.vdict [("b", .vint 1)])
        = .ok [.vdict [("b", .vint 1)]] :=
  ⟨rfl, rfl, rfl⟩

/-- C7 (amended): for a mapping query of two non-reserved, non-empty
string keys, a successful `search` result is the positional intersection
of the two single-key results: an element survives iff every (path,
condition) pair holds, the two-key result is the filter of either
single-key result by the other condition, and equals the filter of the
collection by the conjunction. -/
theorem search_field_conjunction_intersection (reM : String → String → Bool) (fuel : Nat)
    (L : List Value) (ka kb : String) (va vb : Value) (ra rb rab : List Value)
    (ha1 : keyStartsWithDunder ka = false) (ha2 : (ka == "") = false)
    (hb1 : keyStartsWithDunder kb = false) (hb2 : (kb == "") = false)
    (hab : search reM fuel L (.vdict [(ka, va), (kb, vb)]) = .ok rab)
    (hA : search reM fuel L (.vdict [(ka, va)]) = .ok ra)
    (hB : search reM fuel L (.vdict [(kb, vb)]) = .ok rb) :
    rab = L.filter (fun x => isOkTrue (match_query fuel x [(ka, va)])
            && isOkTrue (match_query fuel x [(kb, vb)]))
    ∧ rab = ra.filter (fun x => isOkTrue (match_query fuel x [(kb, vb)]))
    ∧ rab = rb.filter (fun x => isOkTrue (match_query fuel x [(ka, va)])) := by
  have hka_idx : (ka == "__index__") = false := key_ne_reserved ha1 rfl
  have hkb_idx : (kb == "__index__") = false := key_ne_reserved hb1 rfl
  have hka_re : (ka == "__regex__") = false := key_ne_reserved ha1 rfl
  have hkb_re : (kb == "__regex__") = false := key_ne_reserved hb1 rfl
  rw [search_fields_only reM fuel L [(ka, va), (kb, vb)]
    (by simp [dlookup, hka_idx, hkb_idx]) (by simp [dlookup, hka_re, hkb_re])
    (by simp [ha1, ha2]) (by simp [ha1, hb1])] at hab
  rw [search_fields_only reM fuel L [(ka, va)]
    (by simp [dlookup, hka_idx]) (by simp [dlookup, hka_re])
    (by simp [ha1, ha2]) (by simp [ha1])] at hA
  rw [search_fields_only reM fuel L [(kb, vb)]
    (by simp [dlookup, hkb_idx]) (by simp [dlookup, hkb_re])
    (by simp [hb1, hb2]) (by simp [hb1])] at hB
  have hab' := fieldStage_ok_filter fuel [(ka, va), (kb, vb)] L rab hab
  have hA' := fieldStage_ok_filter fuel [(ka, va)] L ra hA
  have hB' := fieldStage_ok_filter fuel [(kb, vb)] L rb hB
  have h1 : rab = L.filter (fun x => isOkTrue (match_query fuel x [(ka, va)])
      && isOkTrue (match_query fuel x [(kb, vb)])) := by
    rw [hab']
    apply List.filter_congr
    intro x _
    exact match_query_cons_isOkTrue fuel x ka va [(kb, vb)]
  refine ⟨h1, ?_, ?_⟩
  · rw [hA', filter_filter_comp]
    exact h1
  · rw [hB', filter_filter_comp, h1]
    apply List.filter_congr
    intro x _
    exact Bool.and_comm _ _

/-- Concrete instance of field-condition conjunction: with
`L = [{"a": 1, "b": 2}, {"a": 1}]`, the two-key query keeps only the
first element, which is the positional intersection of the two single-key
results. -/
theorem search_field_conjunction_intersection_witness :
    ([Value.vdict [("a", .vint 1), ("b", .vint 2)]] : List Value)
      = ([Value.vdict [("a", .vint 1), ("b", .vint 2)], Value.vdict [("a", .vint 1)]].filter
          (fun x => isOkTrue (match_query 2 x [("a", Value.vint 1)])
            && isOkTrue (match_query 2 x [("b", Value.vint 2)])))
    ∧ ([Value.vdict [("a", .vint 1), ("b", .vint 2)]] : List Value)
      = ([Value.vdict [("a", .vint 1), ("b", .vint 2)], Value.vdict [("a", .vint 1)]].filter
          (fun x => isOkTrue (match_query 2 x [("b", Value.vint 2)])))
    ∧ ([Value.vdict [("a", .vint 1), ("b", .vint 2)]] : List Value)
      = ([Value.vdict [("a", .vint 1), ("b", .vint 2)]].filter
          (fun x => isOkTrue (match_query 2 x [("a", Value.vint 1)]))) :=
  search_field_conjunction_intersection reMLit 2
    [Value.vdict [("a", .vint 1), ("b", .vint 2)], Value.vdict [("a", .vint 1)]]
    "a" "b" (.vint 1) (.vint 2)
    [Value.vdict [("a", .vint 1), ("b", .vint 2)], Value.vdict [("a", .vint 1)]]
    [Value.vdict [("a", .vint 1), ("b", .vint 2)]]
    [Value.vdict [("a", .vint 1), ("b", .vint 2)]]
    rfl rfl rfl rfl rfl rfl rfl
